import Mathlib

/-!
Verification of the Testing Portal's service layer against its specification.

The definitions below are shallow embeddings of the Python service modules
(`services/allocation_service.py`, `services/uat_service.py`,
`services/quality_service.py`, `services/user_service.py`,
`services/audit_service.py`).  JSON dictionaries become Lean structures or
association lists; the JSON files on disk become explicit list-valued state
threaded through each operation; every operation that returns Python's
`(success, message)` pair returns `Bool × String` together with the new file
state.  Timestamps and generated identifiers (`datetime.now()`, `uuid4`) are
passed in as explicit arguments.  File writes are modelled as always
succeeding, matching the services' happy path.
-/

namespace TestingPortal

/-! ## The shared allocations file (allocation_service.py, uat_service.py)

A record of the allocations file.  `record_type` and `id` are the two keys the
services dispatch on; every other key of the JSON dictionary is kept in the
`fields` association list (string-valued; `None` values are represented by
`""`, which the services also treat as falsy). -/
structure FileRec where
  record_type : String
  id : String
  fields : List (String × String)
deriving DecidableEq, Repr

/-- Python `dict.update`: existing keys are overwritten in place, new keys are
appended in order. -/
def dict_update (base upd : List (String × String)) : List (String × String) :=
  (base.map (fun kv => match upd.lookup kv.1 with
    | some v => (kv.1, v)
    | none => kv))
  ++ upd.filter (fun kv => (base.lookup kv.1).isNone)

/-- Leading-whitespace removal on a character list. -/
def drop_leading_ws : List Char → List Char
  | [] => []
  | c :: cs => if c.isWhitespace then drop_leading_ws cs else c :: cs

/-- Python `str.strip()`: remove leading and trailing whitespace. -/
def py_strip (s : String) : String :=
  ⟨((drop_leading_ws s.data).reverse |> drop_leading_ws).reverse⟩

/-- Python `str.upper()` (the ids compared here are ASCII). -/
def py_upper (s : String) : String :=
  ⟨s.data.map Char.toUpper⟩

/-- Python `str.lower()`. -/
def py_lower (s : String) : String :=
  ⟨s.data.map Char.toLower⟩

/-- `_load_all_data` in allocation_service.py: the whole file. -/
def load_all_data (file : List FileRec) : List FileRec := file

/-- The UAT-typed entries of the file (`record_type == 'uat'`). -/
def uat_only (file : List FileRec) : List FileRec :=
  file.filter (fun r => r.record_type == "uat")

/-- The allocation-typed entries of the file (`record_type == 'allocation'`). -/
def alloc_only (file : List FileRec) : List FileRec :=
  file.filter (fun r => r.record_type == "allocation")

/-- `_load_allocations`: every entry whose `record_type` is not `'uat'`. -/
def load_allocations (file : List FileRec) : List FileRec :=
  file.filter (fun r => r.record_type != "uat")

/-- `_save_allocations`: re-reads the file, extracts the UAT-typed entries and
writes them back followed by the given allocation list. -/
def save_allocations (allocations : List FileRec) (file : List FileRec) :
    List FileRec :=
  uat_only file ++ allocations

/-- `_save_uat_records` in uat_service.py: writes exactly the given records,
performing no merge with the current file contents. -/
def save_uat_records (records : List FileRec) (_file : List FileRec) :
    List FileRec :=
  records

/-- `create_allocation_record`: stamps id / created_by / created_at /
`record_type='allocation'`, appends to the loaded allocations and saves with
the UAT-preserving merge. -/
def create_allocation_record (new_id username created_at : String)
    (allocation_data : List (String × String)) (file : List FileRec) :
    Bool × String × List FileRec :=
  let new_rec : FileRec :=
    ⟨"allocation", new_id,
      dict_update allocation_data
        [("created_by", username), ("created_at", created_at)]⟩
  (true, "Allocation created successfully",
    save_allocations (load_allocations file ++ [new_rec]) file)

/-- First record with the given id gets its `fields` transformed; `none` when
no record matches (the services' "not found" case). -/
def update_by_id (target : String)
    (f : List (String × String) → List (String × String)) :
    List FileRec → Option (List FileRec)
  | [] => none
  | r :: rs =>
    if r.id == target then some ({r with fields := f r.fields} :: rs)
    else match update_by_id target f rs with
      | some rs2 => some (r :: rs2)
      | none => none

/-- `update_allocation_record`: merges the supplied fields over the first
matching allocation, stamps updated_by / updated_at, and saves with the
UAT-preserving merge; fails (file untouched) when the id is unknown. -/
def update_allocation_record (allocation_id username updated_at : String)
    (updated_data : List (String × String)) (file : List FileRec) :
    Bool × String × List FileRec :=
  match update_by_id allocation_id
      (fun fs => dict_update (dict_update fs updated_data)
        [("updated_by", username), ("updated_at", updated_at)])
      (load_allocations file) with
  | some allocations =>
    (true, "Allocation updated successfully", save_allocations allocations file)
  | none => (false, "Allocation not found", file)

/-- `delete_allocation_record`: filters the loaded allocations by id and saves
with the UAT-preserving merge; fails (file untouched) when nothing matched. -/
def delete_allocation_record (allocation_id : String) (file : List FileRec) :
    Bool × String × List FileRec :=
  let allocations := load_allocations file
  let remaining := allocations.filter (fun a => a.id != allocation_id)
  if remaining.length == allocations.length then
    (false, "Allocation not found", file)
  else
    (true, "Allocation deleted successfully", save_allocations remaining file)

/-! ## UAT service (uat_service.py)

The input dictionary of `create_uat_record` / `update_uat_record`.  Keys that
the code reads with plain `.get(key)` and then tests for truthiness are
modelled as `String`, with `""` standing for both a missing key and an empty
value (both are falsy in Python); `category_type`, read with
`.get('category_type', 'Build')`, keeps the missing/present distinction as an
`Option`. -/
structure UatData where
  trial_id : String := ""
  uat_round : String := ""
  category : String := ""
  planned_start_date : String := ""
  planned_end_date : String := ""
  status : String := ""
  result : String := ""
  actual_start_date : String := ""
  actual_end_date : String := ""
  date_difference_reason : String := ""
  category_type : Option String := none
  email_body : String := ""
deriving DecidableEq, Repr

/-- The date-difference test of create_uat_record / update_uat_record: some
non-empty actual date differs from its planned counterpart. -/
def has_date_difference (d : UatData) : Bool :=
  (d.actual_start_date != "" && d.actual_start_date != d.planned_start_date)
  || (d.actual_end_date != "" && d.actual_end_date != d.planned_end_date)

/-- The message returned when a date difference has no reason. -/
def date_diff_msg : String :=
  "Reason for date difference is required when actual dates differ from planned dates"

/-- The required-field loop of `create_uat_record`, checked in source order;
each message is the Python f-string
`f"{field.replace('_', ' ').title()} is required"` evaluated on the constant
field name. -/
def required_field_error (d : UatData) : Option String :=
  if d.trial_id = "" then some "Trial Id is required"
  else if d.uat_round = "" then some "Uat Round is required"
  else if d.category = "" then some "Category is required"
  else if d.planned_start_date = "" then some "Planned Start Date is required"
  else if d.planned_end_date = "" then some "Planned End Date is required"
  else if d.status = "" then some "Status is required"
  else if d.result = "" then some "Result is required"
  else none

/-- The field dictionary `create_uat_record` builds for a new record (minus
`id` and `record_type`, which live in the `FileRec` structure). -/
def uat_record_fields (d : UatData) (username created_at : String) :
    List (String × String) :=
  [("trial_id", py_strip d.trial_id), ("uat_round", py_strip d.uat_round),
   ("category", py_strip d.category),
   ("category_type", d.category_type.getD "Build"),
   ("planned_start_date", d.planned_start_date),
   ("planned_end_date", d.planned_end_date),
   ("actual_start_date", d.actual_start_date),
   ("actual_end_date", d.actual_end_date),
   ("date_difference_reason",
     if has_date_difference d then py_strip d.date_difference_reason else ""),
   ("status", d.status), ("result", d.result),
   ("email_body", py_strip d.email_body),
   ("created_by", username), ("created_at", created_at)]

/-- `create_uat_record`: required-field validation, then the date-difference
check, then append-and-save.  `_load_uat_records` returns the whole file (no
`record_type` filter) and `_save_uat_records` writes its argument verbatim, so
a successful create maps the file to `file ++ [new record]`. -/
def create_uat_record (d : UatData) (new_id username created_at : String)
    (file : List FileRec) : Bool × String × List FileRec :=
  match required_field_error d with
  | some msg => (false, msg, file)
  | none =>
    if has_date_difference d && (d.date_difference_reason == "") then
      (false, date_diff_msg, file)
    else
      (true, "UAT record created successfully",
        save_uat_records
          (load_all_data file ++ [⟨"uat", new_id, uat_record_fields d username created_at⟩])
          file)

/-- The field dictionary `update_uat_record` merges over the matched record
(one `dict.update` call in the source, stamps included). -/
def uat_update_fields (d : UatData) (username updated_at : String) :
    List (String × String) :=
  [("trial_id", py_strip d.trial_id), ("uat_round", py_strip d.uat_round),
   ("category", py_strip d.category),
   ("category_type", d.category_type.getD "Build"),
   ("planned_start_date", d.planned_start_date),
   ("planned_end_date", d.planned_end_date),
   ("actual_start_date", d.actual_start_date),
   ("actual_end_date", d.actual_end_date),
   ("date_difference_reason",
     if has_date_difference d then py_strip d.date_difference_reason else ""),
   ("status", d.status), ("result", d.result),
   ("email_body", py_strip d.email_body),
   ("updated_by", username), ("updated_at", updated_at)]

/-- `update_uat_record`: the date-difference check runs first; then the first
record of the whole file with the given id (the load is unfiltered) has the
update dictionary merged over it and the file is written back. -/
def update_uat_record (d : UatData) (record_id username updated_at : String)
    (file : List FileRec) : Bool × String × List FileRec :=
  if has_date_difference d && (d.date_difference_reason == "") then
    (false, date_diff_msg, file)
  else
    match update_by_id record_id
        (fun fs => dict_update fs (uat_update_fields d username updated_at))
        (load_all_data file) with
    | some file2 => (true, "UAT record updated successfully",
        save_uat_records file2 file)
    | none => (false, "UAT record not found", file)

/-- `delete_uat_record`: filters the whole file by id; success iff the file
shrank. -/
def delete_uat_record (record_id : String) (file : List FileRec) :
    Bool × String × List FileRec :=
  let records := load_all_data file
  let remaining := records.filter (fun r => r.id != record_id)
  if remaining.length < records.length then
    (true, "UAT record deleted successfully", save_uat_records remaining file)
  else
    (false, "UAT record not found", file)

/-! ## Allocation search (allocation_service.py, search_allocations)

The `filters` dictionary.  String-valued filters are `Option String` (`none`
for a missing key); the two date filters carry the already-parsed date value
produced by the calling route (`none` both when the filter is absent and when
the route left an unparseable string in place, in which case the service's
comparison raises inside the `try` and the filter assignment is skipped).
Dates are abstracted to `Int` together with a parse function for the records'
stored date strings. -/
structure Filters where
  system : Option String := none
  category : Option String := none
  therapeutic_area : Option String := none
  engineer : Option String := none
  role : Option String := none
  trial_id : Option String := none
  created_by : Option String := none
  start_date : Option Int := none
  end_date : Option Int := none
deriving DecidableEq, Repr

/-- `filters.get(k) and filters[k] != 'All'`: the filter value when it is
present, non-empty and not the literal `'All'`. -/
def active_filter : Option String → Option String
  | some v => if v = "" ∨ v = "All" then none else some v
  | none => none

/-- Whether the first character list is a prefix of the second. -/
def starts_with_chars : List Char → List Char → Bool
  | [], _ => true
  | _ :: _, [] => false
  | a :: as, b :: bs => a == b && starts_with_chars as bs

/-- Whether the first character list occurs contiguously in the second. -/
def occurs_in_chars (needle : List Char) : List Char → Bool
  | [] => needle.isEmpty
  | b :: bs => starts_with_chars needle (b :: bs) || occurs_in_chars needle bs

/-- Python `needle in hay` on strings. -/
def str_contains (hay needle : String) : Bool :=
  occurs_in_chars needle.data hay.data

/-- A `.get(key)` lookup on a record's field dictionary. -/
def FileRec.get (r : FileRec) (key : String) : Option String :=
  r.fields.lookup key

/-- A `.get(key, '')` lookup. -/
def FileRec.getD (r : FileRec) (key : String) : String :=
  (r.fields.lookup key).getD ""

/-- One equality-filter stage of `search_allocations`
(`a.get(key) == filters[k]`). -/
def apply_eq_filter (v : Option String) (key : String) (l : List FileRec) :
    List FileRec :=
  match active_filter v with
  | some s => l.filter (fun a => a.get key == some s)
  | none => l

/-- The category stage: `Build` matches either the explicit type field or the
free-text field exactly; `Change Request` matches the type field exactly or a
substring of the free-text field; any other value applies no filter. -/
def apply_category_filter (v : Option String) (l : List FileRec) :
    List FileRec :=
  match active_filter v with
  | some s =>
    if s = "Build" then
      l.filter (fun a => a.get "trial_category_type" == some "Build"
        || a.get "trial_category" == some "Build")
    else if s = "Change Request" then
      l.filter (fun a => a.get "trial_category_type" == some "Change Request"
        || str_contains (a.getD "trial_category") "Change Request")
    else l
  | none => l

/-- The therapeutic-area stage: `Others` matches the type field or the
`'Others -'` marker in the free text; any other value matches the type field
exactly or occurs as a substring of the free text. -/
def apply_area_filter (v : Option String) (l : List FileRec) : List FileRec :=
  match active_filter v with
  | some s =>
    if s = "Others" then
      l.filter (fun a => a.get "therapeutic_area_type" == some "Others"
        || str_contains (a.getD "therapeutic_area") "Others -")
    else
      l.filter (fun a => a.get "therapeutic_area_type" == some s
        || str_contains (a.getD "therapeutic_area") s)
  | none => l

/-- A date-range stage.  The list comprehension parses every record's stored
date; one unparseable date raises and leaves the list unchanged (`except:
pass`), so the filter applies only when every record parses. -/
def apply_date_filter (parse : String → Option Int) (key fallback : String)
    (keep : Int → Bool) (v : Option Int) (l : List FileRec) : List FileRec :=
  match v with
  | some _ =>
    if l.all (fun a => (parse (a.fields.lookup key |>.getD fallback)).isSome) then
      l.filter (fun a =>
        match parse (a.fields.lookup key |>.getD fallback) with
        | some dte => keep dte
        | none => false)
    else l
  | none => l

/-- `search_allocations`: loads the allocations (non-UAT entries) and applies
each supplied filter in source order as a conjunction. -/
def search_allocations (parse : String → Option Int) (f : Filters)
    (file : List FileRec) : List FileRec :=
  let l := load_allocations file
  let l := apply_eq_filter f.system "system" l
  let l := apply_category_filter f.category l
  let l := apply_area_filter f.therapeutic_area l
  let l := apply_eq_filter f.engineer "test_engineer_name" l
  let l := apply_eq_filter f.role "role" l
  let l := apply_eq_filter f.trial_id "trial_id" l
  let l := apply_eq_filter f.created_by "created_by" l
  let l := apply_date_filter parse "start_date" "2024-01-01"
    (fun dte => decide (f.start_date.getD 0 ≤ dte)) f.start_date l
  let l := apply_date_filter parse "end_date" "2024-12-31"
    (fun dte => decide (dte ≤ f.end_date.getD 0)) f.end_date l
  l

/-! ## Quality service (quality_service.py)

A stored quality record, restricted to the keys the verified operations read.
Numeric JSON values are `Int`.  The generated `record_id`, the audit stamps
and the float-valued `defect_density` are not modelled: no verified property
reads them. -/
structure QRec where
  trial_id : String
  type_of_requirement : String
  current_round : Int
  requirement_round : Int
  total_requirements : Int
  total_failures : Int
  spec_issue : Int
  mock_crf_issue : Int
  programming_issue : Int
  scripting_issue : Int
deriving DecidableEq, Repr

/-- Python `max(...)` over a list known to be non-empty at the call site. -/
def list_max : List Int → Int
  | [] => 0
  | x :: xs => xs.foldl max x

/-- The persisted records matching the exact (trial_id, type_of_requirement)
pair. -/
def pair_records (store : List QRec) (trial_id requirement_type : String) :
    List QRec :=
  store.filter (fun r =>
    r.trial_id == trial_id && r.type_of_requirement == requirement_type)

/-- The in-flight wizard records of the given requirement type (`if
wizard_records:` skips `None` and the empty list; the trial id is not
consulted for wizard records). -/
def wizard_type_records (wizard_records : Option (List QRec))
    (requirement_type : String) : List QRec :=
  match wizard_records with
  | none => []
  | some ws =>
    if ws.isEmpty then []
    else ws.filter (fun r => r.type_of_requirement == requirement_type)

/-- `get_requirement_round`: 1 when no matching record exists, else one more
than the maximum `requirement_round` among pair-matching persisted records and
type-matching in-flight records. -/
def get_requirement_round (store : List QRec)
    (trial_id requirement_type : String)
    (wizard_records : Option (List QRec)) : Int :=
  let trial_records := pair_records store trial_id requirement_type
    ++ wizard_type_records wizard_records requirement_type
  if trial_records.isEmpty then 1
  else list_max (trial_records.map (fun r => r.requirement_round)) + 1

/-- The input dictionary of `create_record`, after the service's integer
coercion of the numeric fields (`int(...)`, non-parseable values already
replaced by 0, or 1 for `requirement_round`). -/
structure QIn where
  trial_id : String := ""
  type_of_requirement : String := ""
  no_of_rounds : Int := 0
  current_round : Int := 0
  requirement_round : Int := 0
  total_requirements : Int := 0
  total_failures : Int := 0
  spec_issue : Int := 0
  mock_crf_issue : Int := 0
  programming_issue : Int := 0
  scripting_issue : Int := 0
deriving DecidableEq, Repr

/-- The sum of the four failure-reason counters computed by `create_record`. -/
def failure_sum (d : QIn) : Int :=
  d.spec_issue + d.mock_crf_issue + d.programming_issue + d.scripting_issue

/-- `create_record`: fills `requirement_round` when absent or 0, validates
`total_failures ≤ total_requirements` and `failure_sum ≤ total_failures`
(in that order, each failure leaving the store untouched), then appends. -/
def create_record (d : QIn) (_username : String) (store : List QRec) :
    Bool × String × List QRec :=
  let req_round :=
    if d.requirement_round == 0 then
      get_requirement_round store d.trial_id d.type_of_requirement none
    else d.requirement_round
  if d.total_failures > d.total_requirements then
    (false, "Total failures cannot exceed total requirements", store)
  else if failure_sum d > d.total_failures then
    (false,
      s!"Sum of failure reasons ({failure_sum d}) cannot exceed total failures",
      store)
  else
    (true, "Quality record created successfully",
      store ++ [⟨d.trial_id, d.type_of_requirement, d.current_round, req_round,
        d.total_requirements, d.total_failures, d.spec_issue, d.mock_crf_issue,
        d.programming_issue, d.scripting_issue⟩])

/-- Insertion-ordered grouping by `trial_id` (the `trials_data` dict of
`get_statistics`). -/
def add_to_group (g : List (String × List QRec)) (r : QRec) :
    List (String × List QRec) :=
  match g with
  | [] => [(r.trial_id, [r])]
  | (k, rs) :: rest =>
    if k == r.trial_id then (k, rs ++ [r]) :: rest
    else (k, rs) :: add_to_group rest r

/-- Group the records by trial, preserving first-seen trial order and record
order within each trial. -/
def group_trials (records : List QRec) : List (String × List QRec) :=
  records.foldl add_to_group []

/-- Stable insertion into a list sorted by `current_round`. -/
def insert_by_round (x : QRec) : List QRec → List QRec
  | [] => [x]
  | y :: ys =>
    if y.current_round < x.current_round then y :: insert_by_round x ys
    else x :: y :: ys

/-- The stable sort by `current_round` applied to each trial's records
(Python `list.sort(key=...)`). -/
def sort_by_round (rs : List QRec) : List QRec :=
  rs.foldr insert_by_round []

/-- The per-trial cumulative loop of `get_statistics`, carrying the running
requirement total, the running failure total and the previous round's
failures. -/
def cumul_loop : List QRec → Int → Int → Int → Int × Int
  | [], trial_req, trial_fail, _ => (trial_req, trial_fail)
  | r :: rs, trial_req, trial_fail, prev_failures =>
    let new_additions := r.total_requirements - prev_failures
    let trial_req2 := if new_additions > 0 then trial_req + new_additions
      else trial_req
    cumul_loop rs trial_req2 (trial_fail + r.total_failures) r.total_failures

/-- The cumulative (requirements, failures) pair for one trial's sorted
records: the first round is the base, later rounds feed `cumul_loop`. -/
def trial_cumul : List QRec → Int × Int
  | [] => (0, 0)
  | r :: rs => cumul_loop rs r.total_requirements r.total_failures
      r.total_failures

/-- The `total_requirements` / `total_failures` totals of `get_statistics`:
group by trial, sort each trial by `current_round`, take each trial's
cumulative pair, and sum over trials. -/
def get_statistics_totals (records : List QRec) : Int × Int :=
  (group_trials records).foldl
    (fun acc g =>
      let p := trial_cumul (sort_by_round g.2)
      (acc.1 + p.1, acc.2 + p.2))
    (0, 0)

/-- The specification's wording of the per-trial cumulative step: add the
round's failures to the failure total and `max(0, requirements − previous
round's failures)` to the requirement total. -/
def spec_cumul_loop : List QRec → Int × Int → Int → Int × Int
  | [], acc, _ => acc
  | r :: rs, acc, prev_failures =>
    spec_cumul_loop rs
      (acc.1 + max 0 (r.total_requirements - prev_failures),
       acc.2 + r.total_failures)
      r.total_failures

/-- The specification's per-trial cumulative pair. -/
def spec_trial_cumul : List QRec → Int × Int
  | [] => (0, 0)
  | r :: rs =>
    spec_cumul_loop rs (r.total_requirements, r.total_failures)
      r.total_failures

/-- The specification's totals: same grouping and sorting, with the
`max(0, ...)` formulation of the cumulative step. -/
def spec_statistics_totals (records : List QRec) : Int × Int :=
  (group_trials records).foldl
    (fun acc g =>
      let p := spec_trial_cumul (sort_by_round g.2)
      (acc.1 + p.1, acc.2 + p.2))
    (0, 0)

/-! ## User service (user_service.py)

A stored user record.  Every key here is read with `.get` (possibly with a
default), so each is an `Option`. -/
structure User where
  password : Option String := none
  email : Option String := none
  role : Option String := none
  is_active : Option Bool := none
  status : Option String := none
  is_audit_reviewer : Option Bool := none
deriving DecidableEq, Repr

/-- The identity dictionary `authenticate_user` returns: a copy of the stored
record with the password key removed, the username added, and the
audit-reviewer flag defaulted to `False`. -/
structure Identity where
  username : String
  email : Option String
  role : Option String
  is_active : Option Bool
  status : Option String
  is_audit_reviewer : Bool
deriving DecidableEq, Repr

/-- The user store: a JSON object keyed by username, modelled as an
association list with first-match lookup (Python dict keys are unique). -/
abbrev UserStore := List (String × User)

/-- `authenticate_user`: unknown username, hash mismatch against
`.get('password', '')`, falsy `.get('is_active', True)` or
`.get('status', 'active') != 'active'` all fail; otherwise the identity copy
is returned.  The hash function (`hash_password`, SHA-256) is passed in as an
argument; the code depends only on equality of its outputs. -/
def authenticate_user (hash : String → String) (users : UserStore)
    (username password : String) : Option Identity :=
  match users.lookup username with
  | none => none
  | some u =>
    if u.password.getD "" != hash password then none
    else if !(u.is_active.getD true) then none
    else if u.status.getD "active" != "active" then none
    else some ⟨username, u.email, u.role, u.is_active, u.status,
      u.is_audit_reviewer.getD false⟩

/-- The usernames whose record has role `'superuser'` (the `superusers`
list in `delete_user`). -/
def superuser_names (users : UserStore) : List String :=
  (users.filter (fun p => p.2.role == some "superuser")).map (fun p => p.1)

/-- Python `del users[k]`: remove the (unique) entry with the given key;
modelled as first-match removal. -/
def remove_key : UserStore → String → UserStore
  | [], _ => []
  | p :: ps, k => if p.1 == k then ps else p :: remove_key ps k

/-- `delete_user`: unknown username fails; the literal usernames `superuser`
and `admin` are protected; deleting the last account with role `superuser` is
blocked; otherwise the entry is removed and saved.  (The success message in
the source interpolates the username and role; the constant here stands for
it.) -/
def delete_user (users : UserStore) (username : String) :
    Bool × String × UserStore :=
  if (users.lookup username).isNone then (false, "User not found", users)
  else if username == "superuser" || username == "admin" then
    (false, "Cannot delete system admin accounts", users)
  else if (superuser_names users).length == 1
      && (superuser_names users).contains username then
    (false, "Cannot delete the last superuser", users)
  else
    (true, "User deleted successfully", remove_key users username)

/-- A pending-registration entry (`pending_users.json`), restricted to the
`username` key that `reject_pending_user` reads (with plain `.get`). -/
structure PendingUser where
  username : Option String := none
  email : Option String := none
deriving DecidableEq, Repr

/-- `reject_pending_user`: filters out every entry whose username equals the
given one and saves; there is no not-found check, so the result is success
whenever the save succeeds (always, in this model). -/
def reject_pending_user (pending : List PendingUser) (username : String) :
    Bool × String × List PendingUser :=
  let remaining := pending.filter (fun u => u.username != some username)
  (true, "Registration rejected", remaining)

/-! ## Audit service (audit_service.py)

A trail document, restricted to the keys `check_duplicate_tmf_vault_id`
reads.  Each of these is read with a `.get` default, and every document the
service itself creates carries all of them; a missing string key is modelled
as `""`. -/
structure TrailDoc where
  id : String
  trail : String
  document_name : String
  created_by : String
  created_at : String
  category : String
  uat_round : String
  tmf_vault_id : String
deriving DecidableEq, Repr

/-- The duplicate-information dictionary returned on a collision. -/
structure DupInfo where
  id : String
  trail : String
  document_name : String
  created_by : String
  created_at : String
  category : String
  uat_round : String
deriving DecidableEq, Repr

/-- The dictionary built from the colliding document. -/
def dup_info_of (doc : TrailDoc) : DupInfo :=
  ⟨doc.id, doc.trail, doc.document_name, doc.created_by, doc.created_at,
    doc.category, doc.uat_round⟩

/-- Whether the loop skips a document: a truthy `exclude_id` that equals the
document's id. -/
def dup_skips (exclude_id : Option String) (doc : TrailDoc) : Bool :=
  match exclude_id with
  | some e => e != "" && doc.id == e
  | none => false

/-- The scan loop of `check_duplicate_tmf_vault_id`: first non-skipped
document whose trimmed, upper-cased `tmf_vault_id` equals the target. -/
def dup_scan (target : String) (exclude_id : Option String) :
    List TrailDoc → Bool × Option DupInfo
  | [] => (false, none)
  | doc :: docs =>
    if dup_skips exclude_id doc then dup_scan target exclude_id docs
    else if py_upper (py_strip doc.tmf_vault_id) == target then
      (true, some (dup_info_of doc))
    else dup_scan target exclude_id docs

/-- `check_duplicate_tmf_vault_id`: a blank or whitespace-only id is never a
duplicate; otherwise the id is trimmed and upper-cased and compared
case-insensitively against every document except the optionally excluded
one. -/
def check_duplicate_tmf_vault_id (documents : List TrailDoc)
    (tmf_vault_id : String) (exclude_id : Option String) :
    Bool × Option DupInfo :=
  if tmf_vault_id = "" ∨ py_strip tmf_vault_id = "" then (false, none)
  else dup_scan (py_upper (py_strip tmf_vault_id)) exclude_id documents

/-- A shared-file state with 3 allocation-typed and 2 UAT-typed entries. -/
def example_shared_file : List FileRec :=
  [⟨"allocation", "A1", []⟩, ⟨"allocation", "A2", []⟩,
   ⟨"allocation", "A3", []⟩, ⟨"uat", "U1", []⟩, ⟨"uat", "U2", []⟩]

/-- A UAT input that passes every validation (all required fields present, no
date difference). -/
def example_uat_data : UatData :=
  {trial_id := "T9", uat_round := "1", category := "Build",
   planned_start_date := "2024-01-01", planned_end_date := "2024-01-02",
   status := "Completed", result := "Pass"}

/-! ## Helper lemmas -/

/-- Two successive filters commute. -/
theorem filter_swap {α : Type} (p q : α → Bool) (l : List α) :
    (l.filter q).filter p = (l.filter p).filter q := by
  induction l with
  | nil => rfl
  | cons a l ih =>
    by_cases hp : p a <;> by_cases hq : q a <;>
      simp [List.filter_cons, hp, hq, ih]

/-- The per-trial cumulative loop equals the specification's `max(0, ...)`
formulation. -/
theorem cumul_loop_eq_spec (rs : List QRec) :
    ∀ trial_req trial_fail prev_failures,
      cumul_loop rs trial_req trial_fail prev_failures
        = spec_cumul_loop rs (trial_req, trial_fail) prev_failures := by
  induction rs with
  | nil => intro tr tf pf; rfl
  | cons r rs ih =>
    intro tr tf pf
    have harith : (if r.total_requirements - pf > 0
        then tr + (r.total_requirements - pf) else tr)
        = tr + max 0 (r.total_requirements - pf) := by
      split <;> omega
    simp only [cumul_loop, spec_cumul_loop, ih, harith]

/-- The per-trial cumulative pair equals the specification's version. -/
theorem trial_cumul_eq_spec (rs : List QRec) :
    trial_cumul rs = spec_trial_cumul rs := by
  cases rs with
  | nil => rfl
  | cons r rs => simp only [trial_cumul, spec_trial_cumul, cumul_loop_eq_spec]

/-! ## Claims -/

/-- C2.  For every collection of quality records, the dashboard statistics
computation groups records by trial, sorts each trial's records by
current_round ascending, and computes each trial's cumulative totals by taking
the first round's total_requirements/total_failures as the base, then for
every subsequent round adding that round's total_failures to the failure
running total and adding max(0, that round's total_requirements minus the
previous round's total_failures) to the requirement running total;
round 1 with requirements=100, failures=10 followed by round 2 with
requirements=15, failures=5 yields cumulative totals (105, 15). -/
theorem quality_statistics_cumulative :
    (∀ records : List QRec,
      get_statistics_totals records = spec_statistics_totals records)
    ∧ get_statistics_totals
        [⟨"T1", "Forms", 1, 1, 100, 10, 0, 0, 0, 0⟩,
         ⟨"T1", "Forms", 2, 2, 15, 5, 0, 0, 0, 0⟩] = (105, 15) := by
  constructor
  · intro records
    simp only [get_statistics_totals, spec_statistics_totals,
      trial_cumul_eq_spec]
  · decide

/-- C6.  For every quality-record creation attempt (after the integer coercion
of the numeric fields), total_failures exceeding total_requirements fails the
operation leaving the store unchanged; the four failure reasons summing past
total_failures also fails leaving the store unchanged, and (when the first
check passed) the failure message names the computed sum. -/
theorem quality_create_sum_invariants (d : QIn) (username : String)
    (store : List QRec) :
    (d.total_failures > d.total_requirements →
      (create_record d username store).1 = false
      ∧ (create_record d username store).2.2 = store)
    ∧ (failure_sum d > d.total_failures →
      (create_record d username store).1 = false
      ∧ (create_record d username store).2.2 = store)
    ∧ (failure_sum d > d.total_failures →
      d.total_failures ≤ d.total_requirements →
      (create_record d username store).2.1
        = s!"Sum of failure reasons ({failure_sum d}) cannot exceed total failures") := by
  refine ⟨fun h => ?_, fun h => ?_, fun h h2 => ?_⟩
  · simp [create_record, h]
  · by_cases h1 : d.total_failures > d.total_requirements
    · simp [create_record, h1]
    · simp [create_record, h1, h]
  · have h1 : ¬ d.total_failures > d.total_requirements := by omega
    simp [create_record, h1, h]

/-- C6 witness: requirements=10, failures=12 fails; requirements=10,
failures=5 with reasons 3+4+0+0=7 fails naming the sum 7. -/
theorem quality_create_sum_invariants_witness :
    (create_record {total_requirements := 10, total_failures := 12}
      "tester" []).1 = false
    ∧ (create_record {total_requirements := 10, total_failures := 12}
      "tester" []).2.2 = []
    ∧ (create_record
        {total_requirements := 10, total_failures := 5, spec_issue := 3,
          mock_crf_issue := 4} "tester" []).1 = false
    ∧ (create_record
        {total_requirements := 10, total_failures := 5, spec_issue := 3,
          mock_crf_issue := 4} "tester" []).2.1
      = "Sum of failure reasons (7) cannot exceed total failures" := by
  have h1 := (quality_create_sum_invariants
    {total_requirements := 10, total_failures := 12} "tester" []).1
    (by decide)
  have h2 := (quality_create_sum_invariants
    {total_requirements := 10, total_failures := 5, spec_issue := 3,
      mock_crf_issue := 4} "tester" []).2.1 (by decide)
  have h3 := (quality_create_sum_invariants
    {total_requirements := 10, total_failures := 5, spec_issue := 3,
      mock_crf_issue := 4} "tester" []).2.2 (by decide) (by decide)
  exact ⟨h1.1, h1.2, h2.1, by simpa using h3⟩

/-- C7.  The requirement-round calculator returns 1 when no persisted record
for the exact (trial_id, type_of_requirement) pair and no in-flight record of
that type exist; otherwise it returns one more than the maximum
requirement_round among those records; records of a different requirement
type (persisted or in-flight) do not affect the result. -/
theorem requirement_round_auto_increment (store : List QRec)
    (trial_id requirement_type : String) (w : Option (List QRec)) :
    (pair_records store trial_id requirement_type = [] →
      wizard_type_records w requirement_type = [] →
      get_requirement_round store trial_id requirement_type w = 1)
    ∧ (pair_records store trial_id requirement_type
        ++ wizard_type_records w requirement_type ≠ [] →
      get_requirement_round store trial_id requirement_type w
        = list_max ((pair_records store trial_id requirement_type
            ++ wizard_type_records w requirement_type).map
              (fun r => r.requirement_round)) + 1)
    ∧ (∀ r : QRec,
      (r.trial_id ≠ trial_id ∨ r.type_of_requirement ≠ requirement_type) →
      get_requirement_round (store ++ [r]) trial_id requirement_type w
        = get_requirement_round store trial_id requirement_type w)
    ∧ (∀ (r : QRec) (ws : List QRec),
      r.type_of_requirement ≠ requirement_type →
      get_requirement_round store trial_id requirement_type (some (ws ++ [r]))
        = get_requirement_round store trial_id requirement_type (some ws)) := by
  refine ⟨fun h1 h2 => ?_, fun h => ?_, fun r hr => ?_, fun r ws hr => ?_⟩
  · simp [get_requirement_round, h1, h2]
  · rw [get_requirement_round, if_neg (by simpa using h)]
  · have hpair : pair_records (store ++ [r]) trial_id requirement_type
        = pair_records store trial_id requirement_type := by
      have : (r.trial_id == trial_id
          && r.type_of_requirement == requirement_type) = false := by
        rcases hr with hr | hr <;> simp [hr]
      simp [pair_records, List.filter_append, this]
    simp [get_requirement_round, hpair]
  · have hfil : ∀ l : List QRec,
        (l ++ [r]).filter (fun x => x.type_of_requirement == requirement_type)
          = l.filter (fun x => x.type_of_requirement == requirement_type) := by
      intro l; simp [List.filter_append, hr]
    have hwiz : wizard_type_records (some (ws ++ [r])) requirement_type
        = wizard_type_records (some ws) requirement_type := by
      cases ws with
      | nil => simp [wizard_type_records, hr]
      | cons a as =>
        simp only [wizard_type_records, List.isEmpty_cons, List.cons_append,
          Bool.false_eq_true, if_false]
        exact hfil (a :: as)
    simp [get_requirement_round, hwiz]

/-- C7 witness: no records for ("T1","Forms") yields round 1; one persisted
record with requirement_round=1 for that pair yields 2; a persisted record of
a different type for the same trial does not change the result. -/
theorem requirement_round_auto_increment_witness :
    get_requirement_round [] "T1" "Forms" none = 1
    ∧ get_requirement_round [⟨"T1", "Forms", 1, 1, 10, 2, 0, 0, 0, 0⟩]
        "T1" "Forms" none = 2
    ∧ get_requirement_round
        [⟨"T1", "Forms", 1, 1, 10, 2, 0, 0, 0, 0⟩,
         ⟨"T1", "Editchecks", 1, 5, 10, 2, 0, 0, 0, 0⟩] "T1" "Forms" none
      = 2 := by
  have h1 := (requirement_round_auto_increment [] "T1" "Forms" none).1
    (by decide) (by decide)
  have h2 := (requirement_round_auto_increment
    [⟨"T1", "Forms", 1, 1, 10, 2, 0, 0, 0, 0⟩] "T1" "Forms" none).2.1
    (by decide)
  have h3 := (requirement_round_auto_increment
    [⟨"T1", "Forms", 1, 1, 10, 2, 0, 0, 0, 0⟩] "T1" "Forms" none).2.2.1
    ⟨"T1", "Editchecks", 1, 5, 10, 2, 0, 0, 0, 0⟩ (by right; decide)
  refine ⟨h1, by simpa using h2, ?_⟩
  rw [show ([⟨"T1", "Forms", 1, 1, 10, 2, 0, 0, 0, 0⟩,
      ⟨"T1", "Editchecks", 1, 5, 10, 2, 0, 0, 0, 0⟩] : List QRec)
      = [⟨"T1", "Forms", 1, 1, 10, 2, 0, 0, 0, 0⟩]
        ++ [⟨"T1", "Editchecks", 1, 5, 10, 2, 0, 0, 0, 0⟩] from rfl, h3]
  simpa using h2

/-- C10.  Rejecting a pending registration reports success for every username
(there is no not-found check), and it removes exactly the entries whose
username equals the given one, leaving every other entry unchanged. -/
theorem reject_pending_no_not_found_check (pending : List PendingUser)
    (username : String) :
    ((reject_pending_user pending username).1 = true)
    ∧ (∀ u : PendingUser,
        u ∈ (reject_pending_user pending username).2.2 ↔
        u ∈ pending ∧ u.username ≠ some username)
    ∧ ((∀ u ∈ pending, u.username ≠ some username) →
        (reject_pending_user pending username).2.2 = pending) := by
  refine ⟨rfl, fun u => ?_, fun h => ?_⟩
  · simp [reject_pending_user, List.mem_filter]
  · simp only [reject_pending_user]
    exact List.filter_eq_self.mpr (by simpa using h)

/-- C10 witness: rejecting a username with no pending entry still succeeds and
leaves the single unrelated entry in place. -/
theorem reject_pending_no_not_found_check_witness :
    (reject_pending_user [⟨some "alice", none⟩] "bob").1 = true
    ∧ (reject_pending_user [⟨some "alice", none⟩] "bob").2.2
      = [⟨some "alice", none⟩] := by
  exact ⟨(reject_pending_no_not_found_check [⟨some "alice", none⟩] "bob").1,
    (reject_pending_no_not_found_check [⟨some "alice", none⟩] "bob").2.2
      (by decide)⟩

/-- C9.  For a stored record whose is_active key or status key is missing,
authentication treats them as true resp. 'active': the account authenticates
whenever the supplied password's hash matches the stored hash, and the
returned identity has the password removed (structurally absent), the
username set, and is_audit_reviewer defaulted to false when absent. -/
theorem authenticate_defaults_missing_flags (hash : String → String)
    (users : UserStore) (username password : String) (u : User)
    (hu : users.lookup username = some u)
    (hact : u.is_active = none) (hstat : u.status = none)
    (hpw : hash password = u.password.getD "") :
    authenticate_user hash users username password
      = some ⟨username, u.email, u.role, none, none,
          u.is_audit_reviewer.getD false⟩ := by
  rw [authenticate_user, hu]
  simp [hpw, hact, hstat]

/-- C9 witness: a record with no is_active and no status keys authenticates
on a matching hash and carries is_audit_reviewer=false. -/
theorem authenticate_defaults_missing_flags_witness :
    authenticate_user (fun s => s ++ "#")
      [("alice", {password := some "pw#", email := some "a@x.com",
                  role := some "user"})] "alice" "pw"
      = some ⟨"alice", some "a@x.com", some "user", none, none, false⟩ := by
  exact authenticate_defaults_missing_flags (fun s => s ++ "#")
    [("alice", {password := some "pw#", email := some "a@x.com",
                role := some "user"})] "alice" "pw"
    {password := some "pw#", email := some "a@x.com", role := some "user"}
    (by decide) rfl rfl (by decide)

/-- Removing the entry of a key that holds no superuser-role entry leaves the
superuser-role entries unchanged. -/
theorem remove_key_preserves_superusers (users : UserStore) (k : String)
    (h : ∀ p ∈ users, p.1 = k → p.2.role ≠ some "superuser") :
    (remove_key users k).filter (fun p => p.2.role == some "superuser")
      = users.filter (fun p => p.2.role == some "superuser") := by
  induction users with
  | nil => rfl
  | cons p ps ih =>
    by_cases hk : p.1 = k
    · have hrole : (p.2.role == some "superuser") = false := by
        simpa using h p (by simp) hk
      simp [remove_key, hk, List.filter_cons, hrole]
    · have := ih (fun q hq hqk => h q (by simp [hq]) hqk)
      by_cases hrole : p.2.role == some "superuser" <;>
        simp [remove_key, hk, List.filter_cons, hrole, this]

/-- Removing one keyed entry drops the superuser-role entry count by at most
one. -/
theorem remove_key_superuser_count (users : UserStore) (k : String) :
    (users.filter (fun p => p.2.role == some "superuser")).length
      ≤ ((remove_key users k).filter
          (fun p => p.2.role == some "superuser")).length + 1 := by
  induction users with
  | nil => simp
  | cons p ps ih =>
    by_cases hk : p.1 = k
    · subst hk
      simp only [remove_key, beq_self_eq_true, if_true]
      by_cases hrole : p.2.role == some "superuser" <;>
        simp [List.filter_cons, hrole]
    · have hk2 : (p.1 == k) = false := by simpa using hk
      by_cases hrole : p.2.role == some "superuser" <;>
        simp [remove_key, hk2, List.filter_cons, hrole] <;> omega

/-- Reduction of `delete_user` at an unknown username. -/
theorem delete_user_not_found (users : UserStore) (username : String)
    (h : users.lookup username = none) :
    delete_user users username = (false, "User not found", users) := by
  simp [delete_user, h]

/-- Reduction of `delete_user` at a present, protected username. -/
theorem delete_user_protected (users : UserStore) (username : String)
    (hfound : (users.lookup username).isNone = false)
    (h : (username == "superuser" || username == "admin") = true) :
    delete_user users username
      = (false, "Cannot delete system admin accounts", users) := by
  rw [delete_user, if_neg (by simp [hfound]), if_pos h]

/-- Reduction of `delete_user` at the last superuser-role account. -/
theorem delete_user_last_guard (users : UserStore) (username : String)
    (hfound : (users.lookup username).isNone = false)
    (h2 : (username == "superuser" || username == "admin") = false)
    (h3 : ((superuser_names users).length == 1
      && (superuser_names users).contains username) = true) :
    delete_user users username
      = (false, "Cannot delete the last superuser", users) := by
  rw [delete_user, if_neg (by simp [hfound]), if_neg (by simp [h2]),
    if_pos h3]

/-- Reduction of `delete_user` when every guard passes. -/
theorem delete_user_success_eq (users : UserStore) (username : String)
    (hfound : (users.lookup username).isNone = false)
    (h2 : (username == "superuser" || username == "admin") = false)
    (h3 : ((superuser_names users).length == 1
      && (superuser_names users).contains username) = false) :
    delete_user users username
      = (true, "User deleted successfully", remove_key users username) := by
  rw [delete_user, if_neg (by simp [hfound]), if_neg (by simp [h2]),
    if_neg (by rw [h3]; simp)]

/-- C3.  Deleting a user fails leaving the store unchanged when the target is
the literal username 'superuser' or 'admin', and when the target is the only
superuser-role account; with a present, unprotected target and at least two
superuser-role accounts the delete succeeds; and every delete preserves the
invariant that at least one superuser-role account exists. -/
theorem delete_user_superuser_guard (users : UserStore) (username : String) :
    ((username = "superuser" ∨ username = "admin") →
      (delete_user users username).1 = false
      ∧ (delete_user users username).2.2 = users)
    ∧ (superuser_names users = [username] →
      (delete_user users username).1 = false
      ∧ (delete_user users username).2.2 = users)
    ∧ (∀ u : User, users.lookup username = some u →
      username ≠ "superuser" → username ≠ "admin" →
      2 ≤ (superuser_names users).length →
      (delete_user users username).1 = true)
    ∧ ((∃ p ∈ users, p.2.role = some "superuser") →
      ∃ p ∈ (delete_user users username).2.2, p.2.role = some "superuser") := by
  have hmem : ∀ l : UserStore,
      (∃ p ∈ l, p.2.role = some "superuser") ↔
      0 < (l.filter (fun p => p.2.role == some "superuser")).length := by
    intro l
    rw [List.length_pos_iff_exists_mem]
    constructor
    · rintro ⟨p, hp, hrole⟩
      exact ⟨p, List.mem_filter.mpr ⟨hp, by simp [hrole]⟩⟩
    · rintro ⟨p, hp⟩
      rcases List.mem_filter.mp hp with ⟨hmem2, hrole⟩
      exact ⟨p, hmem2, by simpa using hrole⟩
  have hnames : (superuser_names users).length
      = (users.filter (fun p => p.2.role == some "superuser")).length := by
    simp [superuser_names]
  refine ⟨fun h => ?_, fun h => ?_, fun u hu h1 h2 hlen => ?_, fun hex => ?_⟩
  · have hc2 : (username == "superuser" || username == "admin") = true := by
      rcases h with h | h <;> simp [h]
    cases hc1 : users.lookup username with
    | none =>
      rw [delete_user_not_found users username hc1]
      exact ⟨rfl, rfl⟩
    | some u =>
      rw [delete_user_protected users username (by rw [hc1]; rfl) hc2]
      exact ⟨rfl, rfl⟩
  · have hc3 : ((superuser_names users).length == 1
        && (superuser_names users).contains username) = true := by
      rw [h]
      simp
    cases hc1 : users.lookup username with
    | none =>
      rw [delete_user_not_found users username hc1]
      exact ⟨rfl, rfl⟩
    | some u =>
      cases hc2 : (username == "superuser" || username == "admin") with
      | true =>
        rw [delete_user_protected users username (by rw [hc1]; rfl) hc2]
        exact ⟨rfl, rfl⟩
      | false =>
        rw [delete_user_last_guard users username (by rw [hc1]; rfl) hc2 hc3]
        exact ⟨rfl, rfl⟩
  · have hc1 : (users.lookup username).isNone = false := by
      rw [hu]
      rfl
    have hc2 : (username == "superuser" || username == "admin") = false := by
      simp [h1, h2]
    have hc3 : ((superuser_names users).length == 1
        && (superuser_names users).contains username) = false := by
      have hne : ((superuser_names users).length == 1) = false := by
        simp only [beq_eq_false_iff_ne, ne_eq]
        omega
      simp [hne]
    rw [delete_user_success_eq users username hc1 hc2 hc3]
  · cases hc1 : users.lookup username with
    | none =>
      rw [delete_user_not_found users username hc1]
      exact hex
    | some u =>
      cases hc2 : (username == "superuser" || username == "admin") with
      | true =>
        rw [delete_user_protected users username (by rw [hc1]; rfl) hc2]
        exact hex
      | false =>
        cases hc3 : ((superuser_names users).length == 1
            && (superuser_names users).contains username) with
        | true =>
          rw [delete_user_last_guard users username (by rw [hc1]; rfl) hc2 hc3]
          exact hex
        | false =>
          rw [delete_user_success_eq users username (by rw [hc1]; rfl) hc2 hc3]
          show ∃ p ∈ remove_key users username, p.2.role = some "superuser"
          by_cases hcont : username ∈ superuser_names users
          · have hcontb : (superuser_names users).contains username = true :=
              List.contains_iff_exists_mem_beq.mpr ⟨username, hcont, by simp⟩
            have hlen1 : ((superuser_names users).length == 1) = false := by
              rcases Bool.and_eq_false_iff.mp hc3 with hg | hg
              · exact hg
              · rw [hcontb] at hg
                cases hg
            have hpos : 0 < (superuser_names users).length :=
              List.length_pos_of_mem hcont
            have hne1 : (superuser_names users).length ≠ 1 := by
              simpa using hlen1
            rw [hmem]
            have hcount := remove_key_superuser_count users username
            rw [hnames] at hne1 hpos
            omega
          · have hnone : ∀ p ∈ users, p.1 = username →
                p.2.role ≠ some "superuser" := by
              intro p hp hpk hrole
              exact hcont (by
                simp only [superuser_names, List.mem_map]
                exact ⟨p, List.mem_filter.mpr ⟨hp, by simp [hrole]⟩, hpk⟩)
            rw [hmem, remove_key_preserves_superusers users username hnone,
              ← hmem]
            exact hex

/-- C3 witness: with the sole superuser-role account "root" the delete is
blocked; with two superuser-role accounts deleting "root" succeeds; the
protected name "admin" is never deletable; and a superuser-role account
survives every delete. -/
theorem delete_user_superuser_guard_witness :
    ((delete_user [("root", {role := some "superuser"})] "root").1 = false
      ∧ (delete_user [("root", {role := some "superuser"})] "root").2.2
        = [("root", {role := some "superuser"})])
    ∧ (delete_user [("root", {role := some "superuser"}),
        ("boss", {role := some "superuser"})] "root").1 = true
    ∧ (delete_user [("admin", {role := some "superuser"}),
        ("boss", {role := some "superuser"})] "admin").1 = false
    ∧ ∃ p ∈ (delete_user [("root", {role := some "superuser"}),
        ("boss", {role := some "superuser"})] "root").2.2,
        p.2.role = some "superuser" := by
  refine ⟨?_, ?_, ?_, ?_⟩
  · exact (delete_user_superuser_guard
      [("root", {role := some "superuser"})] "root").2.1 (by decide)
  · exact (delete_user_superuser_guard
      [("root", {role := some "superuser"}),
        ("boss", {role := some "superuser"})] "root").2.2.1
      {role := some "superuser"} (by decide) (by decide) (by decide)
      (by decide)
  · exact ((delete_user_superuser_guard
      [("admin", {role := some "superuser"}),
        ("boss", {role := some "superuser"})] "admin").1 (Or.inr rfl)).1
  · exact (delete_user_superuser_guard
      [("root", {role := some "superuser"}),
        ("boss", {role := some "superuser"})] "root").2.2.2
      ⟨("root", {role := some "superuser"}), by simp, rfl⟩

/-- A required-field message is never the date-difference message. -/
theorem required_msg_ne_date_diff (d : UatData) (msg : String)
    (h : required_field_error d = some msg) : msg ≠ date_diff_msg := by
  rw [required_field_error] at h
  split_ifs at h <;>
    first
    | exact Option.noConfusion h
    | (simp only [Option.some.injEq] at h
       subst h
       decide)

/-- C5.  A UAT create or update whose non-empty actual date differs from its
planned counterpart fails writing nothing when no date-difference reason is
supplied, and with a non-empty reason the operation is never rejected with the
date-difference message. -/
theorem uat_date_difference_reason (d : UatData)
    (new_id username created_at record_id upd_user updated_at : String)
    (file : List FileRec) (hdiff : has_date_difference d = true) :
    (d.date_difference_reason = "" →
      (create_uat_record d new_id username created_at file).1 = false
      ∧ (create_uat_record d new_id username created_at file).2.2 = file
      ∧ (update_uat_record d record_id upd_user updated_at file).1 = false
      ∧ (update_uat_record d record_id upd_user updated_at file).2.2 = file)
    ∧ (d.date_difference_reason ≠ "" →
      (create_uat_record d new_id username created_at file).2.1 ≠ date_diff_msg
      ∧ (update_uat_record d record_id upd_user updated_at file).2.1
        ≠ date_diff_msg) := by
  constructor
  · intro hr
    have hcond : (has_date_difference d
        && (d.date_difference_reason == "")) = true := by
      simp [hdiff, hr]
    refine ⟨?_, ?_, ?_, ?_⟩
    · cases hre : required_field_error d <;>
        simp [create_uat_record, hre, hcond]
    · cases hre : required_field_error d <;>
        simp [create_uat_record, hre, hcond]
    · simp [update_uat_record, hcond]
    · simp [update_uat_record, hcond]
  · intro hr
    have hcond : (has_date_difference d
        && (d.date_difference_reason == "")) = false := by
      simp [hr]
    constructor
    · cases hre : required_field_error d with
      | some msg =>
        simpa [create_uat_record, hre] using required_msg_ne_date_diff d msg hre
      | none =>
        simp only [create_uat_record, hre]
        rw [if_neg (by rw [hcond]; simp)]
        simp [date_diff_msg]
    · rw [update_uat_record, if_neg (by rw [hcond]; simp)]
      split <;> simp [date_diff_msg]

/-- C5 witness: an actual end date differing from the planned end date with no
reason is rejected without writing; adding a reason avoids the
date-difference rejection. -/
theorem uat_date_difference_reason_witness :
    (create_uat_record
      {trial_id := "T1", uat_round := "1", category := "Build",
       planned_start_date := "2024-01-01", planned_end_date := "2024-01-10",
       status := "Completed", result := "Pass",
       actual_end_date := "2024-01-12"} "id1" "alice" "now" []).1 = false
    ∧ (create_uat_record
      {trial_id := "T1", uat_round := "1", category := "Build",
       planned_start_date := "2024-01-01", planned_end_date := "2024-01-10",
       status := "Completed", result := "Pass",
       actual_end_date := "2024-01-12"} "id1" "alice" "now" []).2.2 = []
    ∧ (create_uat_record
      {trial_id := "T1", uat_round := "1", category := "Build",
       planned_start_date := "2024-01-01", planned_end_date := "2024-01-10",
       status := "Completed", result := "Pass",
       actual_end_date := "2024-01-12",
       date_difference_reason := "site delay"} "id1" "alice" "now" []).2.1
      ≠ date_diff_msg := by
  have h1 := (uat_date_difference_reason
    {trial_id := "T1", uat_round := "1", category := "Build",
     planned_start_date := "2024-01-01", planned_end_date := "2024-01-10",
     status := "Completed", result := "Pass",
     actual_end_date := "2024-01-12"} "id1" "alice" "now" "r" "u" "t" []
    (by decide)).1 rfl
  have h2 := (uat_date_difference_reason
    {trial_id := "T1", uat_round := "1", category := "Build",
     planned_start_date := "2024-01-01", planned_end_date := "2024-01-10",
     status := "Completed", result := "Pass",
     actual_end_date := "2024-01-12",
     date_difference_reason := "site delay"} "id1" "alice" "now" "r" "u" "t" []
    (by decide)).2 (by decide)
  exact ⟨h1.1, h1.2.1, h2.1⟩

/-- The boolean result of the duplicate scan is true exactly when some
non-skipped document matches the normalised target. -/
theorem dup_scan_true_iff (target : String) (ex : Option String)
    (docs : List TrailDoc) :
    (dup_scan target ex docs).1 = true ↔
    ∃ doc ∈ docs, dup_skips ex doc = false
      ∧ py_upper (py_strip doc.tmf_vault_id) = target := by
  induction docs with
  | nil => simp [dup_scan]
  | cons doc docs ih =>
    by_cases hs : dup_skips ex doc = true
    · rw [dup_scan, if_pos hs, ih]
      constructor
      · rintro ⟨x, hx, h⟩
        exact ⟨x, List.mem_cons_of_mem _ hx, h⟩
      · rintro ⟨x, hx, hskip, hm⟩
        rcases List.mem_cons.mp hx with rfl | hx
        · rw [hs] at hskip
          cases hskip
        · exact ⟨x, hx, hskip, hm⟩
    · have hs2 : dup_skips ex doc = false := by simpa using hs
      by_cases hm : (py_upper (py_strip doc.tmf_vault_id) == target) = true
      · rw [dup_scan, if_neg (by rw [hs2]; simp), if_pos hm]
        simp only [true_iff]
        exact ⟨doc, by simp, hs2, by simpa using hm⟩
      · rw [dup_scan, if_neg (by rw [hs2]; simp), if_neg hm, ih]
        constructor
        · rintro ⟨x, hx, h⟩
          exact ⟨x, List.mem_cons_of_mem _ hx, h⟩
        · rintro ⟨x, hx, hskip, hmm⟩
          rcases List.mem_cons.mp hx with rfl | hx
          · exact absurd (by simpa using hmm) hm
          · exact ⟨x, hx, hskip, hmm⟩

/-- A successful duplicate scan returns the information of a matching
document. -/
theorem dup_scan_found (target : String) (ex : Option String)
    (docs : List TrailDoc) (h : (dup_scan target ex docs).1 = true) :
    ∃ doc ∈ docs, py_upper (py_strip doc.tmf_vault_id) = target
      ∧ (dup_scan target ex docs).2 = some (dup_info_of doc) := by
  induction docs with
  | nil => simp [dup_scan] at h
  | cons doc docs ih =>
    by_cases hs : dup_skips ex doc = true
    · rw [dup_scan, if_pos hs] at h ⊢
      rcases ih h with ⟨x, hx, hm, he⟩
      exact ⟨x, List.mem_cons_of_mem _ hx, hm, he⟩
    · have hs2 : dup_skips ex doc = false := by simpa using hs
      by_cases hm : (py_upper (py_strip doc.tmf_vault_id) == target) = true
      · rw [dup_scan, if_neg (by rw [hs2]; simp), if_pos hm]
        exact ⟨doc, by simp, by simpa using hm, rfl⟩
      · rw [dup_scan, if_neg (by rw [hs2]; simp), if_neg hm] at h ⊢
        rcases ih h with ⟨x, hx, hmm, he⟩
        exact ⟨x, List.mem_cons_of_mem _ hx, hmm, he⟩

/-- C4.  The tmf_vault_id duplicate check reports a duplicate exactly when
some document other than the optionally excluded one matches after trimming
and case folding; a blank or whitespace-only id is never a duplicate; and on
a collision the first matching document's identifying fields are returned. -/
theorem tmf_vault_id_duplicate_check (documents : List TrailDoc)
    (tmf_vault_id : String) (exclude_id : Option String)
    (hx : exclude_id ≠ some "") :
    ((check_duplicate_tmf_vault_id documents tmf_vault_id exclude_id).1 = true
      ↔ py_strip tmf_vault_id ≠ "" ∧ ∃ doc ∈ documents,
          (∀ e, exclude_id = some e → doc.id ≠ e)
          ∧ py_upper (py_strip doc.tmf_vault_id) = py_upper (py_strip tmf_vault_id))
    ∧ (py_strip tmf_vault_id = "" →
        check_duplicate_tmf_vault_id documents tmf_vault_id exclude_id
          = (false, none))
    ∧ ((check_duplicate_tmf_vault_id documents tmf_vault_id exclude_id).1
        = true →
      ∃ doc ∈ documents,
        py_upper (py_strip doc.tmf_vault_id) = py_upper (py_strip tmf_vault_id)
        ∧ (check_duplicate_tmf_vault_id documents tmf_vault_id exclude_id).2
          = some (dup_info_of doc)) := by
  have hskip_iff : ∀ doc : TrailDoc, dup_skips exclude_id doc = false ↔
      (∀ e, exclude_id = some e → doc.id ≠ e) := by
    intro doc
    cases exclude_id with
    | none => simp [dup_skips]
    | some e =>
      have he : (e != "") = true := by
        have : e ≠ "" := fun h => hx (by rw [h])
        simpa using this
      simp [dup_skips, he]
  have hempty : ∀ s : String, s = "" → py_strip s = "" := by
    intro s h
    subst h
    decide
  refine ⟨?_, fun htr => ?_, fun h => ?_⟩
  · by_cases htr : py_strip tmf_vault_id = ""
    · rw [check_duplicate_tmf_vault_id, if_pos (Or.inr htr)]
      simp [htr]
    · rw [check_duplicate_tmf_vault_id,
        if_neg (by rintro (h | h) <;> [exact htr (hempty _ h); exact htr h]),
        dup_scan_true_iff]
      constructor
      · rintro ⟨doc, hd, hskip, hm⟩
        exact ⟨htr, doc, hd, (hskip_iff doc).mp hskip, hm⟩
      · rintro ⟨-, doc, hd, hne, hm⟩
        exact ⟨doc, hd, (hskip_iff doc).mpr hne, hm⟩
  · rw [check_duplicate_tmf_vault_id, if_pos (Or.inr htr)]
  · by_cases htr : py_strip tmf_vault_id = ""
    · rw [check_duplicate_tmf_vault_id, if_pos (Or.inr htr)] at h
      cases h
    · rw [check_duplicate_tmf_vault_id,
        if_neg (by rintro (h2 | h2) <;> [exact htr (hempty _ h2); exact htr h2])]
        at h ⊢
      exact dup_scan_found _ _ _ h

/-- C4 witness: "abc-123" collides case-insensitively with a stored "ABC-123";
resubmitting "ABC-123" while excluding the owning document is not a
duplicate. -/
theorem tmf_vault_id_duplicate_check_witness :
    (check_duplicate_tmf_vault_id
      [⟨"id1", "Trail-A", "DocName", "creator", "2024-01-01", "Build", "1",
        "ABC-123"⟩] "abc-123" none).1 = true
    ∧ (check_duplicate_tmf_vault_id
      [⟨"id1", "Trail-A", "DocName", "creator", "2024-01-01", "Build", "1",
        "ABC-123"⟩] "ABC-123" (some "id1")).1 = false := by
  constructor
  · exact (tmf_vault_id_duplicate_check
      [⟨"id1", "Trail-A", "DocName", "creator", "2024-01-01", "Build", "1",
        "ABC-123"⟩] "abc-123" none (by simp)).1.mpr
      ⟨by decide,
        ⟨"id1", "Trail-A", "DocName", "creator", "2024-01-01", "Build", "1",
          "ABC-123"⟩, by decide, by simp, by decide⟩
  · cases hb : (check_duplicate_tmf_vault_id
      [⟨"id1", "Trail-A", "DocName", "creator", "2024-01-01", "Build", "1",
        "ABC-123"⟩] "ABC-123" (some "id1")).1 with
    | false => rfl
    | true =>
      exact absurd ((tmf_vault_id_duplicate_check
        [⟨"id1", "Trail-A", "DocName", "creator", "2024-01-01", "Build", "1",
          "ABC-123"⟩] "ABC-123" (some "id1") (by simp)).1.mp hb)
        (by decide)

/-- `uat_only` distributes over append. -/
theorem uat_only_append (a b : List FileRec) :
    uat_only (a ++ b) = uat_only a ++ uat_only b := by
  simp [uat_only, List.filter_append]

/-- The loaded allocations contain no UAT-typed entry. -/
theorem uat_only_load_allocations (file : List FileRec) :
    uat_only (load_allocations file) = [] := by
  rw [uat_only, load_allocations, List.filter_filter]
  refine List.filter_eq_nil_iff.mpr ?_
  intro a _
  by_cases h : a.record_type = "uat" <;> simp [h]

/-- `_save_allocations` keeps exactly the file's UAT entries plus whatever
UAT-typed entries the supplied list holds. -/
theorem uat_only_save_allocations (allocations file : List FileRec) :
    uat_only (save_allocations allocations file)
      = uat_only file ++ uat_only allocations := by
  simp only [save_allocations, uat_only, List.filter_append,
    List.filter_filter, Bool.and_self]

/-- `update_by_id` never changes any record's `record_type`. -/
theorem update_by_id_record_types (target : String)
    (f : List (String × String) → List (String × String)) :
    ∀ l l2 : List FileRec, update_by_id target f l = some l2 →
      l2.map FileRec.record_type = l.map FileRec.record_type := by
  intro l
  induction l with
  | nil => intro l2 h; cases h
  | cons r rs ih =>
    intro l2 h
    rw [update_by_id] at h
    by_cases hid : (r.id == target) = true
    · rw [if_pos hid] at h
      cases h
      simp
    · rw [if_neg hid] at h
      cases hrec : update_by_id target f rs with
      | some rs2 =>
        rw [hrec] at h
        cases h
        simp [ih rs2 hrec]
      | none =>
        rw [hrec] at h
        cases h

/-- A list with the same record types as a UAT-free list is UAT-free. -/
theorem uat_only_eq_nil_of_types (l l2 : List FileRec)
    (htypes : l2.map FileRec.record_type = l.map FileRec.record_type)
    (hl : uat_only l = []) : uat_only l2 = [] := by
  rw [uat_only, List.filter_eq_nil_iff] at hl ⊢
  intro a ha
  have hmem : a.record_type ∈ l.map FileRec.record_type := by
    rw [← htypes]
    exact List.mem_map_of_mem _ ha
  rcases List.mem_map.mp hmem with ⟨b, hb, hba⟩
  intro hcontra
  exact hl b hb (by rw [hba]; exact hcontra)

/-- C1 counterexample: the UAT save writes exactly its argument, so saving the
UAT collection (the UAT-typed entries) of a shared file that also holds an
allocation-typed entry loses that allocation entry. -/
theorem shared_file_merge_counterexample :
    alloc_only (save_uat_records
      (uat_only [⟨"allocation", "A1", []⟩, ⟨"uat", "U1", []⟩])
      [⟨"allocation", "A1", []⟩, ⟨"uat", "U1", []⟩])
      ≠ alloc_only [⟨"allocation", "A1", []⟩, ⟨"uat", "U1", []⟩] := by
  decide

/-- C1 (amended).  Saving the allocation collection — as done by create,
update and delete of an allocation — leaves every UAT-typed entry unchanged;
the UAT create leaves every allocation-typed entry unchanged (its load
returns the whole file); the UAT save itself writes exactly the given
records with no merge; and on a file with 3 allocation and 2 UAT entries,
creating an allocation yields 4+2 and creating a UAT record yields 3+3. -/
theorem shared_file_merge_amended :
    (∀ (new_id username created_at : String) (data : List (String × String))
        (file : List FileRec),
      uat_only
          (create_allocation_record new_id username created_at data file).2.2
        = uat_only file)
    ∧ (∀ (allocation_id username updated_at : String)
        (upd : List (String × String)) (file : List FileRec),
      uat_only
          (update_allocation_record allocation_id username updated_at upd
            file).2.2
        = uat_only file)
    ∧ (∀ (allocation_id : String) (file : List FileRec),
      uat_only (delete_allocation_record allocation_id file).2.2
        = uat_only file)
    ∧ (∀ (d : UatData) (new_id username created_at : String)
        (file : List FileRec),
      alloc_only (create_uat_record d new_id username created_at file).2.2
        = alloc_only file)
    ∧ (∀ records file : List FileRec, save_uat_records records file = records)
    ∧ ((alloc_only (create_allocation_record "A4" "tester" "now" []
          example_shared_file).2.2).length = 4
      ∧ (uat_only (create_allocation_record "A4" "tester" "now" []
          example_shared_file).2.2).length = 2
      ∧ (alloc_only (create_uat_record example_uat_data "U3" "tester" "now"
          example_shared_file).2.2).length = 3
      ∧ (uat_only (create_uat_record example_uat_data "U3" "tester" "now"
          example_shared_file).2.2).length = 3) := by
  refine ⟨?_, ?_, ?_, ?_, fun records file => rfl, ?_⟩
  · intro new_id username created_at data file
    show uat_only (save_allocations _ file) = uat_only file
    rw [uat_only_save_allocations, uat_only_append,
      uat_only_load_allocations]
    simp [uat_only]
  · intro allocation_id username updated_at upd file
    rw [update_allocation_record]
    cases hup : update_by_id allocation_id
        (fun fs => dict_update (dict_update fs upd)
          [("updated_by", username), ("updated_at", updated_at)])
        (load_allocations file) with
    | none => rfl
    | some allocations =>
      have h2 := update_by_id_record_types _ _ _ _ hup
      have h3 : uat_only allocations = [] :=
        uat_only_eq_nil_of_types _ _ h2 (uat_only_load_allocations file)
      show uat_only (save_allocations allocations file) = uat_only file
      rw [uat_only_save_allocations, h3, List.append_nil]
  · intro allocation_id file
    simp only [delete_allocation_record]
    split
    · rfl
    · show uat_only (save_allocations _ file) = uat_only file
      have h3 : uat_only ((load_allocations file).filter
          (fun a => a.id != allocation_id)) = [] := by
        rw [uat_only, filter_swap]
        rw [show List.filter (fun r => r.record_type == "uat")
            (load_allocations file) = uat_only (load_allocations file)
            from rfl,
          uat_only_load_allocations]
        rfl
      rw [uat_only_save_allocations, h3, List.append_nil]
  · intro d new_id username created_at file
    rw [create_uat_record]
    split
    · rfl
    · split
      · rfl
      · show alloc_only (load_all_data file ++ _) = alloc_only file
        simp [alloc_only, load_all_data, List.filter_append]
  · refine ⟨?_, ?_, ?_, ?_⟩ <;> decide

/-- An equality-filter stage commutes with a pre-filter of the input list. -/
theorem apply_eq_filter_swap (v : Option String) (key : String)
    (p : FileRec → Bool) (l : List FileRec) :
    apply_eq_filter v key (l.filter p)
      = (apply_eq_filter v key l).filter p := by
  cases hv : active_filter v with
  | none => simp only [apply_eq_filter, hv]
  | some s =>
    simp only [apply_eq_filter, hv]
    exact filter_swap _ p l

/-- The category stage commutes with a pre-filter of the input list. -/
theorem apply_category_filter_swap (v : Option String) (p : FileRec → Bool)
    (l : List FileRec) :
    apply_category_filter v (l.filter p)
      = (apply_category_filter v l).filter p := by
  cases hv : active_filter v with
  | none => simp only [apply_category_filter, hv]
  | some s =>
    simp only [apply_category_filter, hv]
    split_ifs <;> first | rfl | exact filter_swap _ p l

/-- The therapeutic-area stage commutes with a pre-filter of the input
list. -/
theorem apply_area_filter_swap (v : Option String) (p : FileRec → Bool)
    (l : List FileRec) :
    apply_area_filter v (l.filter p) = (apply_area_filter v l).filter p := by
  cases hv : active_filter v with
  | none => simp only [apply_area_filter, hv]
  | some s =>
    simp only [apply_area_filter, hv]
    split_ifs <;> exact filter_swap _ p l

/-- An equality-filter stage at an active value filters by field equality. -/
theorem apply_eq_filter_active (v : Option String) (s key : String)
    (l : List FileRec) (hv : active_filter v = some s) :
    apply_eq_filter v key l = l.filter (fun a => a.get key == some s) := by
  simp only [apply_eq_filter, hv]

/-- An equality-filter stage at an inactive value is the identity. -/
theorem apply_eq_filter_inactive (v : Option String) (key : String)
    (l : List FileRec) (hv : active_filter v = none) :
    apply_eq_filter v key l = l := by
  simp only [apply_eq_filter, hv]

/-- C8 counterexample: with the single trial_id filter "t1" over one
allocation whose trial_id is "T1", the service search returns nothing, even
though "t1" is a case-insensitive substring of "T1" (the criterion the claim
states). -/
theorem search_trial_id_substring_counterexample :
    search_allocations (fun _ => none) {trial_id := some "t1"}
      [⟨"allocation", "A1", [("trial_id", "T1")]⟩] = []
    ∧ str_contains (py_lower "T1") (py_lower "t1") = true := by
  exact ⟨rfl, rfl⟩

/-- C8 (amended).  For a trial_id filter value other than '' and 'All', the
allocation search keeps exactly the allocations whose trial_id field equals
the filter value verbatim (case-sensitive, whole-value), conjoined with the
remaining filters: the search over the file equals the search without the
trial_id filter over the file restricted to exact trial_id matches. -/
theorem search_trial_id_exact_amended (parse : String → Option Int)
    (f : Filters) (file : List FileRec) (t : String)
    (ht : f.trial_id = some t) (hne : t ≠ "") (hall : t ≠ "All") :
    search_allocations parse f file
      = search_allocations parse {f with trial_id := none}
          (file.filter (fun a => a.get "trial_id" == some t)) := by
  have hactive : active_filter (some t) = some t := by
    simp [active_filter, hne, hall]
  have hload : load_allocations
        (file.filter (fun a => a.get "trial_id" == some t))
      = (load_allocations file).filter (fun a => a.get "trial_id" == some t) := by
    rw [load_allocations, load_allocations]
    exact filter_swap _ _ file
  have hinact : ∀ l : List FileRec,
      apply_eq_filter (none : Option String) "trial_id" l = l :=
    fun l => apply_eq_filter_inactive none "trial_id" l rfl
  simp only [search_allocations, ht, hload, apply_eq_filter_swap,
    apply_category_filter_swap, apply_area_filter_swap,
    apply_eq_filter_active _ _ _ _ hactive, hinact]

/-- C8 witness for the amended statement: the filter "T1" selects the exact
match and drops the case-different and superstring trial ids. -/
theorem search_trial_id_exact_amended_witness :
    search_allocations (fun _ => none) {trial_id := some "T1"}
      [⟨"allocation", "A1", [("trial_id", "T1")]⟩,
       ⟨"allocation", "A2", [("trial_id", "t1")]⟩,
       ⟨"allocation", "A3", [("trial_id", "T10")]⟩]
      = [⟨"allocation", "A1", [("trial_id", "T1")]⟩] := by
  rw [search_trial_id_exact_amended (fun _ => none)
    {trial_id := some "T1"}
    [⟨"allocation", "A1", [("trial_id", "T1")]⟩,
     ⟨"allocation", "A2", [("trial_id", "t1")]⟩,
     ⟨"allocation", "A3", [("trial_id", "T10")]⟩] "T1" rfl
    (by decide) (by decide)]
  rfl

end TestingPortal
